import Mathlib

/-!
Verification development for the SafeSign contract-risk analyzer
(`src/main.py`). The pure computational core of the program is embedded
shallowly below: Python strings are Lean `String`s (`data : List Char`),
Python `str` methods are modelled by explicit functions on character lists,
fallible operations (library calls that may raise) are modelled with
`Except`/`Option`, and the opaque external collaborators (the PDF library,
the UTF-8 byte decoder, the generative-model backend and its JSON parser)
are passed in as explicit oracle parameters.
-/

namespace SafeSign

/-! ## Python string primitives -/

/-- Python `str.lower()` restricted to ASCII: map each character in the
uppercase range `A`-`Z` to its lowercase counterpart. -/
def pyLowerChar (c : Char) : Char :=
  if 65 ≤ c.toNat ∧ c.toNat ≤ 90 then Char.ofNat (c.toNat + 32) else c

/-- Python `str.lower()` on a whole string. -/
def pyLower (s : String) : String := ⟨s.data.map pyLowerChar⟩

/-- Python whitespace test (`str.strip()` default set, ASCII part):
space, tab, newline, carriage return, vertical tab, form feed. -/
def pyIsSpace (c : Char) : Bool :=
  c = ' ' || c = '\t' || c = '\n' || c = '\x0d' || c = '\x0b' || c = '\x0c'

/-- Python `str.strip()`: drop leading and trailing whitespace. -/
def pyStrip (s : String) : String :=
  ⟨((s.data.dropWhile pyIsSpace).reverse.dropWhile pyIsSpace).reverse⟩

/-- Character-list equality on a leading segment: `leadsWith n l` is true
iff `n` is an initial segment of `l`. -/
def leadsWith : List Char → List Char → Bool
  | [], _ => true
  | _ :: _, [] => false
  | a :: as, b :: bs => a = b && leadsWith as bs

/-- Substring occurrence on character lists: `hasSub n l` is true iff `n`
occurs contiguously in `l`. -/
def hasSub (needle : List Char) : List Char → Bool
  | [] => leadsWith needle []
  | c :: rest => leadsWith needle (c :: rest) || hasSub needle rest

/-- Python `"needle" in haystack` substring test. -/
def pyContains (haystack needle : String) : Bool :=
  hasSub needle.data haystack.data

/-- Python `str.endswith(t)`. -/
def pyEndsWith (s t : String) : Bool :=
  leadsWith t.data.reverse s.data.reverse

/-- Python `text.replace("\n", " ")`: newline is a single character, so the
replacement is a character map. -/
def replaceNewlines (s : String) : String :=
  ⟨s.data.map (fun c => if c = '\n' then ' ' else c)⟩

/-- Python `re.split(r"[.!?]", s)` on the character list: fragments between
sentence terminators, empty fragments included (as `re.split` produces). -/
def splitPunct : List Char → List (List Char)
  | [] => [[]]
  | c :: rest =>
    if c = '.' ∨ c = '!' ∨ c = '?' then
      [] :: splitPunct rest
    else
      match splitPunct rest with
      | [] => [[c]]
      | h :: t => (c :: h) :: t

/-! ## Data model -/

/-- One detected risk item, as built by the rule-based detector
(`fallback_detect_risks`): all five fields are strings. -/
structure Clause where
  type : String
  title : String
  severity : String
  original_text : String
  simplified_text : String
  deriving DecidableEq, Repr

/-- The `(title, sentence)` deduplication key used by the rule-based
detector (`tag = (rule["title"], sentence)` in the source). -/
def Clause.tag (c : Clause) : String × String := (c.title, c.original_text)

/-! ## Rule table (`fallback_detect_risks`, lines 189-220) -/

/-- One entry of the fixed keyword-rule table: category key, human title,
fixed severity, and case-insensitive substring keywords. -/
structure Rule where
  key : String
  title : String
  severity : String
  keywords : List String
  deriving DecidableEq, Repr

/-- The `rules` dict of `fallback_detect_risks`, in Python insertion
order. -/
def rules : List Rule :=
  [ ⟨"lock_in", "Lock-in Period", "high",
      ["lock-in", "lock in", "minimum tenure", "cannot cancel", "min tenure"]⟩,
    ⟨"foreclosure", "Foreclosure / Prepayment Charges", "high",
      ["foreclosure", "prepayment", "pre-closure", "pre closure"]⟩,
    ⟨"penalty", "Penalty & Late Fees", "high",
      ["late fee", "late payment", "penalty", "overdue interest"]⟩,
    ⟨"auto_renew", "Automatic Renewal", "medium",
      ["auto renewal", "auto-renewal", "automatically renewed"]⟩,
    ⟨"data_sharing", "Data Sharing & Third-Party Consent", "medium",
      ["third party", "share your data", "marketing purposes", "partners and affiliates"]⟩,
    ⟨"charges", "Hidden Charges & Fees", "medium",
      ["processing fee", "non-refundable", "service charge", "additional charges", "maintenance fee"]⟩ ]

/-- The Hinglish canned-explanation table of `simple_explanation`. -/
def hiMapping : List (String × String) :=
  [ ("Lock-in Period",
     "Iska matlab hai ki aap kuch time tak yeh plan ya agreement easily band nahi kar sakte."),
    ("Foreclosure / Prepayment Charges",
     "Agar aap loan ya EMI jaldi band karoge to extra charges ya penalty lag sakti hai."),
    ("Penalty & Late Fees",
     "Payment delay hone par aapko extra late fee ya penalty deni padegi."),
    ("Automatic Renewal",
     "Agar aap time se cancel nahi karoge to yeh plan automatically renew ho sakta hai."),
    ("Data Sharing & Third-Party Consent",
     "Aapka personal data dusri companies ke saath share ho sakta hai."),
    ("Hidden Charges & Fees",
     "Isme aise hidden charges ho sakte hain jo pehle clearly nazar nahi aate.") ]

/-- The English canned-explanation table of `simple_explanation`. -/
def enMapping : List (String × String) :=
  [ ("Lock-in Period",
     "This means you may not be able to easily exit or cancel this plan for some time."),
    ("Foreclosure / Prepayment Charges",
     "If you close the loan or EMI early, you may have to pay extra foreclosure or prepayment charges."),
    ("Penalty & Late Fees",
     "If your payment is late, you may need to pay penalty or late fees."),
    ("Automatic Renewal",
     "The plan may renew automatically unless you cancel it in time."),
    ("Data Sharing & Third-Party Consent",
     "Your personal data may be shared with other companies or partners."),
    ("Hidden Charges & Fees",
     "There might be extra fees that are not clearly visible at first.") ]

/-- `simple_explanation(title, language)`: language-selected table lookup
with a generic default (`mapping.get(title, default)`). -/
def simple_explanation (title language : String) : String :=
  if language = "hi" then
    (hiMapping.lookup title).getD
      "Yeh clause aapke liye risk create kar sakta hai. Dhyan se padho."
  else
    (enMapping.lookup title).getD
      "This clause might create some risk for you. Please read it carefully."

/-! ## Rule-based detector (`fallback_detect_risks`, lines 184-268) -/

/-- The inner keyword loop for one sentence and one rule: scan the rule's
keywords in order; on a substring match, `continue` to the next keyword if
the `(title, sentence)` tag is already in `seen`, otherwise report a match
(`break` in the source). Returns whether a clause is to be emitted. -/
def kwLoop (kws : List String) (lower sentence title : String)
    (seen : List (String × String)) : Bool :=
  match kws with
  | [] => false
  | kw :: rest =>
    if pyContains lower kw then
      if (title, sentence) ∈ seen then kwLoop rest lower sentence title seen
      else true
    else kwLoop rest lower sentence title seen

/-- The clause appended for a sentence matching a rule. -/
def mkClause (r : Rule) (sentence language : String) : Clause :=
  ⟨r.key, r.title, r.severity, sentence, simple_explanation r.title language⟩

/-- The loop over the rule table for one sentence, threading the `seen`
set and the `detected` list. -/
def ruleLoop (sentence lower language : String) :
    List Rule → List (String × String) × List Clause →
    List (String × String) × List Clause
  | [], st => st
  | r :: rest, (seen, detected) =>
    if kwLoop r.keywords lower sentence r.title seen then
      ruleLoop sentence lower language rest
        ((r.title, sentence) :: seen, detected ++ [mkClause r sentence language])
    else
      ruleLoop sentence lower language rest (seen, detected)

/-- `fallback_detect_risks(text, language)`: replace newlines with spaces,
split into trimmed nonempty sentences on `.` `!` `?`, then scan every
sentence against the rule table with `(title, sentence)` deduplication. -/
def fallback_detect_risks (text language : String) : List Clause :=
  let text_clean := replaceNewlines text
  let sentences :=
    ((splitPunct text_clean.data).map (fun l => pyStrip ⟨l⟩)).filter (· ≠ "")
  (sentences.foldl
    (fun st sentence => ruleLoop sentence (pyLower sentence) language rules st)
    ([], [])).2

/-! ## Risk score and level (lines 274-299) -/

/-- Python `(c.get("severity") or "medium")`: `None` (missing key) and the
empty string are falsy and fall back to `"medium"`. -/
def sevOrMedium (sev : Option String) : String :=
  match sev with
  | none => "medium"
  | some s => if s = "" then "medium" else s

/-- The per-clause weight added by `calculate_risk_score`:
`.lower()` then 25 for `"high"`, 15 for `"medium"`, 5 otherwise. -/
def sevWeight (sev : Option String) : Nat :=
  let s := pyLower (sevOrMedium sev)
  if s = "high" then 25 else if s = "medium" then 15 else 5

/-- `calculate_risk_score(clauses)`. The source reads only each clause's
`"severity"` entry, so the embedding takes the list of severity fields
(`none` models a missing or `None` severity). -/
def calculate_risk_score (sevs : List (Option String)) : Nat :=
  min (sevs.foldl (fun score s => score + sevWeight s) 0) 100

/-- `risk_level_from_score(score)`. -/
def risk_level_from_score (score : Int) : String :=
  if score < 30 then "low"
  else if score < 70 then "medium"
  else "high"

/-! ## AI response handling (`ai_detect_risks`, lines 154-178) -/

/-- Python `str.find(c)` for a single character: index of the first
occurrence, `none` for Python's `-1`. -/
def charFind (c : Char) : List Char → Option Nat
  | [] => none
  | a :: l => if a = c then some 0 else (charFind c l).map (· + 1)

/-- Python `str.rfind(c)` for a single character: index of the last
occurrence, `none` for Python's `-1`. -/
def charRfind (c : Char) (l : List Char) : Option Nat :=
  match charFind c l.reverse with
  | none => none
  | some i => some (l.length - 1 - i)

/-- Lines 157-162 of `ai_detect_risks`: locate the first `{` and the last
`}` in the raw model output and slice out `content[start : end + 1]`;
`none` when either brace is absent. -/
def extractJsonStr (content : String) : Option String :=
  match charFind '{' content.data, charRfind '}' content.data with
  | some st, some en => some ⟨(content.data.drop st).take (en + 1 - st)⟩
  | _, _ => none

/-- A Python/JSON value, as produced by `json.loads`. -/
inductive PyVal where
  | pstr (s : String)
  | pint (n : Int)
  | pbool (b : Bool)
  | pnull
  | plist (xs : List PyVal)
  | pdict (kvs : List (String × PyVal))

/-- Python `v.get(key, dflt)`: succeeds only on a dict (an `AttributeError`
on anything else is modelled as `Except.error`); a key present with value
`null` returns `null`, not the default. -/
def pyGet (v : PyVal) (key : String) (dflt : PyVal) : Except Unit PyVal :=
  match v with
  | .pdict kvs => .ok ((kvs.lookup key).getD dflt)
  | _ => .error ()

/-- Python `v.lower()`: only defined on strings, `AttributeError`
otherwise. -/
def pyLowerMeth (v : PyVal) : Except Unit String :=
  match v with
  | .pstr s => .ok (pyLower s)
  | _ => .error ()

/-- Python `v.strip()`: only defined on strings, `AttributeError`
otherwise. -/
def pyStripMeth (v : PyVal) : Except Unit String :=
  match v with
  | .pstr s => .ok (pyStrip s)
  | _ => .error ()

/-- One clause as cleaned by `ai_detect_risks` (lines 168-174): `type` and
`title` are used verbatim (any value), the other three fields pass through
a string method and so are strings. -/
structure CleanedClause where
  type : PyVal
  title : PyVal
  severity : String
  original_text : String
  simplified_text : String

/-- The cleaned-dict construction for one entry `c` of the `clauses` array
(lines 168-174), in Python evaluation order; any raised `AttributeError`
propagates. -/
def cleanOne (c : PyVal) : Except Unit CleanedClause := do
  let ty ← pyGet c "type" (.pstr "other")
  let ti ← pyGet c "title" (.pstr "Risky clause")
  let sevRaw ← pyGet c "severity" (.pstr "medium")
  let sev ← pyLowerMeth sevRaw
  let otRaw ← pyGet c "original_text" (.pstr "")
  let ot ← pyStripMeth otRaw
  let stRaw ← pyGet c "simplified_text" (.pstr "")
  let st ← pyStripMeth stRaw
  return ⟨ty, ti, sev, ot, st⟩

/-- Lines 165-175: `data.get("clauses", [])` followed by the cleaning loop.
Iterating a non-list raises unless the value is empty (`""` or `{}`), in
which case the loop body never runs. Any raised error propagates. -/
def cleanClauses (data : PyVal) : Except Unit (List CleanedClause) := do
  let cl ← pyGet data "clauses" (.plist [])
  match cl with
  | .plist cs => cs.mapM cleanOne
  | .pstr "" => return []
  | .pdict [] => return []
  | _ => .error ()

/-- The response-handling tail of `ai_detect_risks` (lines 154-178): brace
slicing, then JSON parsing (the parser is an oracle parameter standing for
`json.loads`, returning `none` on a parse error), then the cleaning loop.
The enclosing `try/except` turns every raised error into `None`. -/
def ai_handle_response (raw : String) (jsonLoads : String → Option PyVal) :
    Option (List CleanedClause) :=
  match extractJsonStr raw with
  | none => none
  | some js =>
    match jsonLoads js with
    | none => none
    | some data =>
      match cleanClauses data with
      | .error _ => none
      | .ok cs => some cs

/-! ## Text extraction (`extract_text_from_file`, lines 49-72) -/

/-- `extract_text_from_file(upload_file)`. The two external library calls
are oracle parameters: `pdfOracle` stands for opening the PDF and reading
`page.extract_text() or ""` for every page (`Except.error` models a raised
exception), and `decodeIgnore` stands for the total call
`content.decode("utf-8", errors="ignore")`, which never raises. -/
def extract_text_from_file (filename : String) (content : List Nat)
    (pdfOracle : Except Unit (List String))
    (decodeIgnore : List Nat → String) : String :=
  let fn := pyLower filename
  if pyEndsWith fn ".pdf" then
    match pdfOracle with
    | .ok pages_text => String.intercalate "\n" pages_text
    | .error _ => decodeIgnore content
  else
    decodeIgnore content

/-! ## Orchestrator (`analyze_document`, lines 305-385) -/

/-- The full analysis response. -/
structure AnalysisResult where
  file_name : String
  risk_score : Nat
  risk_level : String
  summary : String
  clauses : List Clause
  deriving DecidableEq, Repr

/-- The English summary synthesis (lines 344-358). -/
def summary_en (risk_level : String) (high_count med_count : Nat) : String :=
  let p1 :=
    if risk_level = "high" then
      "This document has HIGH risk. It contains clauses that can lock you in or cause significant extra costs."
    else if risk_level = "medium" then
      "This document has MEDIUM risk. It contains some clauses you should review carefully before signing."
    else
      "This document appears to have LOW risk based on our checks, but you should still read it once before signing."
  let parts := [p1]
    ++ (if high_count ≠ 0 then
          ["We found about " ++ toString high_count ++
           " high-severity clauses (e.g., heavy penalties or long lock-in)."]
        else [])
    ++ (if med_count ≠ 0 then
          ["We also found " ++ toString med_count ++
           " medium-severity clauses (such as extra charges or data sharing)."]
        else [])
    ++ ["Scroll down to review each risky clause in simple language before you decide to sign."]
  String.intercalate " " parts

/-- The Hinglish summary synthesis (lines 360-375). -/
def summary_hi (risk_level : String) (high_count med_count : Nat) : String :=
  let p1 :=
    if risk_level = "high" then
      "Yeh document HIGH risk wala hai. Isme aise clauses hain jo aapko lock-in kar sakte hain ya extra paise dilaa sakte hain."
    else if risk_level = "medium" then
      "Yeh document MEDIUM risk ka hai. Isme kuch important clauses hain jo sign karne se pehle dhyaan se padhna chahiye."
    else
      "Humaare checks ke hisaab se yeh document LOW risk lagta hai, lekin sign karne se pehle ek baar zaroor padhna chahiye."
  let parts := [p1]
    ++ (if high_count ≠ 0 then
          ["Humein lagbhag " ++ toString high_count ++
           " high-risk clauses mile (jaise bada lock-in ya heavy penalty)."]
        else [])
    ++ (if med_count ≠ 0 then
          ["Humein " ++ toString med_count ++
           " medium-risk clauses bhi mile (jaise extra charges, processing fee, data sharing)."]
        else [])
    ++ ["Neeche har risky clause ko simple Hinglish/English mein explain kiya gaya hai. Sign karne se pehle ek baar zaroor dekh lo."]
  String.intercalate " " parts

/-- The canned could-not-read message, English. -/
def msg_en : String :=
  "We could not read any text from this document. Please upload a text-based or clear PDF."

/-- The canned could-not-read message, Hinglish. -/
def msg_hi : String :=
  "Is document se text read nahi ho paaya. Kripya ek clear text-based PDF ya file upload karein."

/-- `analyze_document` after text extraction: `raw_text` is the extracted
text and `aiResult` stands for the outcome of `ai_detect_risks` (`none` =
unavailable, triggering the rule-based fallback). Mirrors lines 316-385:
empty-text short circuit, detector selection, scoring, level, counts and
bilingual summary. -/
def analyze_document (filename language raw_text : String)
    (aiResult : Option (List Clause)) : AnalysisResult :=
  if pyStrip raw_text = "" then
    { file_name := filename
      risk_score := 0
      risk_level := "unknown"
      summary := if language = "hi" then msg_hi else msg_en
      clauses := [] }
  else
    let clauses :=
      match aiResult with
      | none => fallback_detect_risks raw_text language
      | some cs => cs
    let risk_score := calculate_risk_score (clauses.map (fun c => some c.severity))
    let risk_level := risk_level_from_score (risk_score : Int)
    let high_count := (clauses.filter (fun c => pyLower c.severity = "high")).length
    let med_count := (clauses.filter (fun c => pyLower c.severity = "medium")).length
    let summary :=
      if language = "hi" then summary_hi risk_level high_count med_count
      else summary_en risk_level high_count med_count
    { file_name := filename
      risk_score := risk_score
      risk_level := risk_level
      summary := summary
      clauses := clauses }

/-! ## Specification-side definitions

These follow the specification's words, for comparison with the embedded
source functions. -/

/-- The per-clause weight exactly as the specification's scoring sentence
states it: high 25, medium 15, low 5, and 15 for a missing or
unknown/unrecognized severity. -/
def specClaimWeight : Option String → Nat
  | none => 15
  | some s =>
    if s = "high" then 25
    else if s = "medium" then 15
    else if s = "low" then 5
    else 15

/-- The per-clause weight the code actually implements, stated
independently of the accumulator loop: 25 for lower-cased `"high"`, 15 for
lower-cased `"medium"` or a missing/empty severity, 5 for everything else
(`"low"` and any unrecognized string). -/
def amendedWeight : Option String → Nat
  | none => 15
  | some s =>
    if s = "" then 15
    else if pyLower s = "high" then 25
    else if pyLower s = "medium" then 15
    else 5

/-- A clause-entry field is safely cleanable when it is absent or holds a
string (the values on which the Python string methods do not raise). -/
def strFieldOk : Option PyVal → Bool
  | none => true
  | some (.pstr _) => true
  | _ => false

/-- The string content of an optional field, with a default: the value the
cleaning loop feeds to `.lower()` / `.strip()` in the non-raising cases. -/
def getStrD (o : Option PyVal) (d : String) : String :=
  match o with
  | some (.pstr s) => s
  | _ => d

/-! ## Lemmas and theorems -/

/-- The accumulator loop of `calculate_risk_score` computes a shifted sum
of the per-clause weights. -/
lemma foldl_sevWeight_eq (l : List (Option String)) :
    ∀ n : Nat, l.foldl (fun score s => score + sevWeight s) n =
      n + (l.map sevWeight).sum := by
  induction l with
  | nil => intro n; simp
  | cons x xs ih =>
    intro n
    simp only [List.foldl_cons, List.map_cons, List.sum_cons, ih]
    omega

/-- The loop weight agrees with the independently stated weight. -/
lemma sevWeight_eq_amendedWeight (s : Option String) :
    sevWeight s = amendedWeight s := by
  cases s with
  | none => rfl
  | some t =>
    by_cases ht : t = ""
    · subst ht; rfl
    · simp only [sevWeight, sevOrMedium, amendedWeight, ht, if_neg ht]
      rfl

/-- Claim C1 fails at severity `"unknown"`: the code adds the low weight 5
for an unrecognized severity string, while the claim's weight table
prescribes the medium weight 15. -/
theorem c1_score_counterexample :
    calculate_risk_score [some "unknown"] = 5 ∧
    min 100 (([some "unknown"] : List (Option String)).map specClaimWeight).sum = 15 ∧
    (5 : Nat) ≠ 15 := by
  refine ⟨by decide, by decide, by decide⟩

/-- Claim C1 (amended): for every clause list, `calculate_risk_score`
returns `min(100, sum of per-clause weights)` where a clause's weight is
25 for lower-cased severity `"high"`, 15 for lower-cased `"medium"` or a
missing/None/empty severity, and 5 otherwise — including `"low"` and any
unrecognized severity string. -/
theorem c1_score_amended (sevs : List (Option String)) :
    calculate_risk_score sevs = min 100 ((sevs.map amendedWeight).sum) := by
  unfold calculate_risk_score
  rw [foldl_sevWeight_eq sevs 0, Nat.zero_add, Nat.min_comm]
  congr 1
  induction sevs with
  | nil => rfl
  | cons x xs ih => simp [sevWeight_eq_amendedWeight, ih]

/-- Claim C2: `risk_level_from_score` returns `"low"` iff the score is
below 30, `"medium"` iff it is in `[30, 70)`, `"high"` iff it is at least
70; boundary values 29, 30, 69, 70 behave as stated. -/
theorem c2_level_thresholds (s : Int) :
    (risk_level_from_score s = "low" ↔ s < 30) ∧
    (risk_level_from_score s = "medium" ↔ 30 ≤ s ∧ s < 70) ∧
    (risk_level_from_score s = "high" ↔ 70 ≤ s) ∧
    risk_level_from_score 29 = "low" ∧
    risk_level_from_score 30 = "medium" ∧
    risk_level_from_score 69 = "medium" ∧
    risk_level_from_score 70 = "high" := by
  have hlm : ("low" : String) ≠ "medium" := by decide
  have hlh : ("low" : String) ≠ "high" := by decide
  have hmh : ("medium" : String) ≠ "high" := by decide
  refine ⟨?_, ?_, ?_, by decide, by decide, by decide, by decide⟩ <;>
    · unfold risk_level_from_score
      split_ifs with h1 h2 <;> simp_all <;> omega

/-- Claim C5: rule-based detection on the two-sentence lock-in/penalty
input yields exactly two clauses, typed `lock_in` then `penalty`, with
`original_text` equal to the respective trimmed sentences (the full
records, explanations included, are pinned down). -/
theorem c5_lock_in_penalty :
    fallback_detect_risks
      "This loan has a lock-in period of 12 months. Late payment attracts a penalty of 2% per month."
      "en" =
    [⟨"lock_in", "Lock-in Period", "high",
      "This loan has a lock-in period of 12 months",
      "This means you may not be able to easily exit or cancel this plan for some time."⟩,
     ⟨"penalty", "Penalty & Late Fees", "high",
      "Late payment attracts a penalty of 2% per month",
      "If your payment is late, you may need to pay penalty or late fees."⟩] := by
  rfl

/-- `risk_level_from_score` never produces `"unknown"`. -/
lemma risk_level_ne_unknown (s : Int) : risk_level_from_score s ≠ "unknown" := by
  unfold risk_level_from_score
  split_ifs <;> decide

/-- Claim C3: the analyze operation returns `risk_level = "unknown"` iff
the extracted text is empty or all-whitespace; in that case the score is
0, the clause list is empty, the summary is the language-selected canned
could-not-read message, and the result does not depend on the detector
outcome (so neither detector nor the scorer influences it). -/
theorem c3_unknown_iff_blank (filename language raw_text : String)
    (aiResult : Option (List Clause)) :
    ((analyze_document filename language raw_text aiResult).risk_level = "unknown" ↔
      pyStrip raw_text = "") ∧
    (pyStrip raw_text = "" →
      (analyze_document filename language raw_text aiResult).risk_score = 0 ∧
      (analyze_document filename language raw_text aiResult).clauses = [] ∧
      (analyze_document filename language raw_text aiResult).summary =
        (if language = "hi" then msg_hi else msg_en) ∧
      ∀ aiOther : Option (List Clause),
        analyze_document filename language raw_text aiResult =
          analyze_document filename language raw_text aiOther) := by
  by_cases hb : pyStrip raw_text = ""
  · refine ⟨?_, fun _ => ?_⟩
    · simp [analyze_document, hb]
    · refine ⟨?_, ?_, ?_, fun aiOther => ?_⟩ <;> simp [analyze_document, hb]
  · have hrl : (analyze_document filename language raw_text aiResult).risk_level ≠ "unknown" := by
      unfold analyze_document
      rw [if_neg hb]
      exact risk_level_ne_unknown _
    exact ⟨⟨fun h => absurd h hrl, fun h => absurd h hb⟩, fun h => absurd h hb⟩

/-- Witness for C3 at a concrete whitespace-only input. -/
theorem c3_witness :
    (analyze_document "a.txt" "en" "   " none).risk_level = "unknown" ∧
    (analyze_document "a.txt" "en" "   " none).risk_score = 0 ∧
    (analyze_document "a.txt" "en" "   " none).clauses = [] := by
  have h := c3_unknown_iff_blank "a.txt" "en" "   " none
  have hb : pyStrip "   " = "" := by decide
  exact ⟨h.1.mpr hb, (h.2 hb).1, (h.2 hb).2.1⟩

/-- Claim C8: the text-extraction embedding is a total function; its
result is always either the newline-joined native page text (PDF success
path) or the ignore-errors UTF-8 decoding of the raw bytes (every other
path, including a raised PDF-library error) — never an uncaught
exception. -/
theorem c8_extract_total (filename : String) (content : List Nat)
    (pdfOracle : Except Unit (List String)) (decodeIgnore : List Nat → String) :
    (∃ pages_text, pdfOracle = Except.ok pages_text ∧
      extract_text_from_file filename content pdfOracle decodeIgnore =
        String.intercalate "\n" pages_text) ∨
    extract_text_from_file filename content pdfOracle decodeIgnore =
      decodeIgnore content := by
  unfold extract_text_from_file
  by_cases hp : pyEndsWith (pyLower filename) ".pdf" = true
  · cases pdfOracle with
    | ok pages_text => exact Or.inl ⟨pages_text, rfl, by simp [hp]⟩
    | error e => exact Or.inr (by simp [hp])
  · exact Or.inr (by simp [hp])

/-- Claim C9 fails on the code: for a PDF whose native text layer yields
only 2 characters (at most 30 after trimming), extraction still returns
the native text — there is no 30-character threshold and no OCR fallback
in the source. -/
theorem c9_counterexample :
    ¬ (∀ (pages_text : List String) (decodeIgnore : List Nat → String),
        extract_text_from_file "a.pdf" [] (Except.ok pages_text) decodeIgnore =
          String.intercalate "\n" pages_text →
        30 < (pyStrip (String.intercalate "\n" pages_text)).data.length) := by
  intro h
  exact absurd (h ["hi"] (fun _ => "") rfl) (by decide)

/-- Claim C9 (amended): for every file whose lower-cased name ends in
`.pdf`, extraction concatenates per-page native text with newline
separators and returns it unconditionally when the PDF library succeeds
(no length threshold, no OCR); if the PDF library raises, it returns the
ignore-errors UTF-8 decoding of the raw bytes. -/
theorem c9_pdf_amended (filename : String) (content : List Nat)
    (pages_text : List String) (decodeIgnore : List Nat → String)
    (hpdf : pyEndsWith (pyLower filename) ".pdf" = true) :
    extract_text_from_file filename content (Except.ok pages_text) decodeIgnore =
      String.intercalate "\n" pages_text ∧
    extract_text_from_file filename content (Except.error ()) decodeIgnore =
      decodeIgnore content := by
  constructor <;> simp [extract_text_from_file, hpdf]

/-- Witness for the amended C9 at a concrete PDF filename. -/
theorem c9_pdf_amended_witness :
    extract_text_from_file "a.pdf" [] (Except.ok ["page one"]) (fun _ : List Nat => "") =
      String.intercalate "\n" ["page one"] ∧
    extract_text_from_file "a.pdf" [] (Except.error ()) (fun _ : List Nat => "") = "" := by
  exact c9_pdf_amended "a.pdf" [] ["page one"] (fun _ : List Nat => "") (by decide)

/-- `charFind` misses exactly when the character is absent. -/
lemma charFind_eq_none_iff (c : Char) (l : List Char) :
    charFind c l = none ↔ c ∉ l := by
  induction l with
  | nil => simp [charFind]
  | cons a l ih =>
    by_cases h : a = c
    · subst h; simp [charFind]
    · have h2 : ¬ c = a := fun hc => h hc.symm
      simp [charFind, h, List.mem_cons, h2, ih, Option.map_eq_none]

/-- `charRfind` misses exactly when the character is absent. -/
lemma charRfind_eq_none_iff (c : Char) (l : List Char) :
    charRfind c l = none ↔ c ∉ l := by
  unfold charRfind
  cases hf : charFind c l.reverse with
  | none =>
    have := (charFind_eq_none_iff c l.reverse).mp hf
    simp only [List.mem_reverse] at this
    simp [this]
  | some i =>
    have hmem : c ∈ l := by
      by_contra hc
      rw [(charFind_eq_none_iff c l.reverse).mpr (by simpa using hc)] at hf
      exact Option.noConfusion hf
    simp [hmem]

/-- `charFind` skips a passage not containing the sought character. -/
lemma charFind_append_not_mem (c : Char) (l₁ l₂ : List Char) (h : c ∉ l₁) :
    charFind c (l₁ ++ l₂) = (charFind c l₂).map (· + l₁.length) := by
  induction l₁ with
  | nil => cases hf : charFind c l₂ <;> simp [hf]
  | cons a l₁ ih =>
    have ha : ¬ a = c := fun hc => h (hc ▸ List.mem_cons_self a l₁)
    have hl : c ∉ l₁ := fun hc => h (List.mem_cons_of_mem a hc)
    cases hf : charFind c l₂ <;>
      simp [charFind, ha, ih hl, hf, Nat.add_assoc]

/-- `charFind` at the head. -/
lemma charFind_cons_self (c : Char) (l : List Char) :
    charFind c (c :: l) = some 0 := by
  simp [charFind]

/-- The first occurrence of `c` in `l₁ ++ c :: l₂` with `c ∉ l₁` is at
index `l₁.length`. -/
lemma charFind_concat (c : Char) (l₁ l₂ : List Char) (h : c ∉ l₁) :
    charFind c (l₁ ++ c :: l₂) = some l₁.length := by
  rw [charFind_append_not_mem c l₁ _ h, charFind_cons_self]
  simp

/-- The last occurrence of `c` in `l₁ ++ c :: l₂` with `c ∉ l₂` is at
index `l₁.length`. -/
lemma charRfind_concat (c : Char) (l₁ l₂ : List Char) (h : c ∉ l₂) :
    charRfind c (l₁ ++ c :: l₂) = some l₁.length := by
  have hrev : (l₁ ++ c :: l₂).reverse = l₂.reverse ++ c :: l₁.reverse := by
    simp
  have hnm : c ∉ l₂.reverse := by simpa using h
  have hlen : (l₁ ++ c :: l₂).length - 1 - l₂.reverse.length = l₁.length := by
    simp only [List.length_append, List.length_cons, List.length_reverse]
    omega
  unfold charRfind
  rw [hrev, charFind_concat c l₂.reverse l₁.reverse hnm]
  show some ((l₁ ++ c :: l₂).length - 1 - l₂.reverse.length) = some l₁.length
  rw [hlen]

/-- The brace-slicing step extracts exactly the substring from the first
`{` to the last `}` when the surrounding prose contains no interfering
brace. -/
lemma extractJsonStr_embed (pre mid post : String)
    (hpre : '{' ∉ pre.data) (hpost : '}' ∉ post.data) :
    extractJsonStr (pre ++ "\x7b" ++ mid ++ "\x7d" ++ post) = some ("\x7b" ++ mid ++ "\x7d") := by
  have hdata : (pre ++ "\x7b" ++ mid ++ "\x7d" ++ post).data =
      pre.data ++ '{' :: (mid.data ++ '}' :: post.data) := by
    simp [String.data_append]
  have hdata2 : (pre ++ "\x7b" ++ mid ++ "\x7d" ++ post).data =
      (pre.data ++ '{' :: mid.data) ++ '}' :: post.data := by
    rw [hdata]; simp
  have hfind : charFind '{' (pre ++ "\x7b" ++ mid ++ "\x7d" ++ post).data =
      some pre.data.length := by
    rw [hdata]; exact charFind_concat '{' pre.data _ hpre
  have hrfind : charRfind '}' (pre ++ "\x7b" ++ mid ++ "\x7d" ++ post).data =
      some (pre.data ++ '{' :: mid.data).length := by
    rw [hdata2]; exact charRfind_concat '}' _ post.data hpost
  unfold extractJsonStr
  rw [hfind, hrfind]
  show some (String.mk (((pre ++ "\x7b" ++ mid ++ "\x7d" ++ post).data.drop pre.data.length).take
      ((pre.data ++ '{' :: mid.data).length + 1 - pre.data.length))) =
    some ("\x7b" ++ mid ++ "\x7d")
  have hlen : (pre.data ++ '{' :: mid.data).length + 1 - pre.data.length =
      mid.data.length + 2 := by
    simp only [List.length_append, List.length_cons]
    omega
  have hdrop : (pre ++ "\x7b" ++ mid ++ "\x7d" ++ post).data.drop pre.data.length =
      '{' :: (mid.data ++ '}' :: post.data) := by
    rw [hdata]; exact List.drop_left _ _
  rw [hlen, hdrop]
  have hsplit : '{' :: (mid.data ++ '}' :: post.data) =
      ('{' :: (mid.data ++ ['}'])) ++ post.data := by simp
  have htakelen : mid.data.length + 2 = ('{' :: (mid.data ++ ['}'])).length := by
    simp
  rw [hsplit, htakelen, List.take_left]
  have hres : ("\x7b" ++ mid ++ "\x7d").data = '{' :: (mid.data ++ ['}']) := by
    simp [String.data_append]
  exact congrArg some (String.ext hres.symm)

/-- Claim C4: the AI-detector's response handling parses exactly the
substring from the first `{` to the last `}` (any surrounding prose is
ignored: handling the full raw output equals handling the embedded object
alone), and when the raw output lacks a `{` or a `}` it returns the
unavailable sentinel `none` instead of raising. -/
theorem c4_ai_response_slicing (raw : String) (jsonLoads : String → Option PyVal) :
    (('{' ∉ raw.data ∨ '}' ∉ raw.data) → ai_handle_response raw jsonLoads = none) ∧
    (∀ pre mid post : String, '{' ∉ pre.data → '}' ∉ post.data →
      extractJsonStr (pre ++ "\x7b" ++ mid ++ "\x7d" ++ post) = some ("\x7b" ++ mid ++ "\x7d") ∧
      ai_handle_response (pre ++ "\x7b" ++ mid ++ "\x7d" ++ post) jsonLoads =
        ai_handle_response ("\x7b" ++ mid ++ "\x7d") jsonLoads) := by
  constructor
  · intro h
    have hnone : extractJsonStr raw = none := by
      unfold extractJsonStr
      rcases h with h | h
      · rw [(charFind_eq_none_iff '{' raw.data).mpr h]
      · rw [(charRfind_eq_none_iff '}' raw.data).mpr h]
        cases charFind '{' raw.data <;> rfl
    unfold ai_handle_response
    rw [hnone]
  · intro pre mid post hpre hpost
    have hfull := extractJsonStr_embed pre mid post hpre hpost
    have hself : extractJsonStr ("\x7b" ++ mid ++ "\x7d") = some ("\x7b" ++ mid ++ "\x7d") := by
      have h := extractJsonStr_embed "" mid "" (by simp) (by simp)
      simpa using h
    refine ⟨hfull, ?_⟩
    unfold ai_handle_response
    rw [hfull, hself]

/-- Witness for C4: a brace-free raw output yields the unavailable
sentinel, and prose around an embedded object is sliced away. -/
theorem c4_witness :
    ai_handle_response "backend temporarily unavailable" (fun _ => none) = none ∧
    extractJsonStr ("Sure! Here is the JSON: " ++ "\x7b" ++ "clauses: []" ++ "\x7d" ++ " Hope it helps.") =
      some ("\x7b" ++ "clauses: []" ++ "\x7d") := by
  constructor
  · exact (c4_ai_response_slicing "backend temporarily unavailable" (fun _ => none)).1
      (Or.inl (by decide))
  · exact ((c4_ai_response_slicing "unused" (fun _ => none)).2
      "Sure! Here is the JSON: " "clauses: []" " Hope it helps."
      (by decide) (by decide)).1

/-- When the keyword loop reports a match to emit, the sentence's tag was
not yet in the seen set (a seen tag only ever skips to the next keyword). -/
lemma kwLoop_true_not_mem (lower sentence title : String)
    (seen : List (String × String)) :
    ∀ kws, kwLoop kws lower sentence title seen = true → (title, sentence) ∉ seen := by
  intro kws
  induction kws with
  | nil => intro h; simp [kwLoop] at h
  | cons kw rest ih =>
    intro h hm
    unfold kwLoop at h
    by_cases hc : pyContains lower kw
    · simp only [hc, if_true, hm, if_pos hm] at h
      exact ih h hm
    · simp only [hc, if_false] at h
      exact ih h hm

/-- The detector-state invariant: every detected clause's tag is recorded
in the seen set, and detected tags are pairwise distinct. -/
def DetInv (st : List (String × String) × List Clause) : Prop :=
  (∀ c ∈ st.2, c.tag ∈ st.1) ∧ st.2.Pairwise (fun a b => a.tag ≠ b.tag)

/-- The per-sentence rule loop preserves the detector-state invariant. -/
lemma ruleLoop_detInv (sentence lower language : String) :
    ∀ (rs : List Rule) (st : List (String × String) × List Clause),
      DetInv st → DetInv (ruleLoop sentence lower language rs st) := by
  intro rs
  induction rs with
  | nil => intro st h; simpa [ruleLoop] using h
  | cons r rest ih =>
    rintro ⟨seen, detected⟩ ⟨hmem, hpair⟩
    unfold ruleLoop
    by_cases hk : kwLoop r.keywords lower sentence r.title seen = true
    · rw [if_pos hk]
      apply ih
      have hnotseen : (r.title, sentence) ∉ seen :=
        kwLoop_true_not_mem lower sentence r.title seen r.keywords hk
      constructor
      · intro c hc
        rcases List.mem_append.mp hc with hcl | hcr
        · exact List.mem_cons_of_mem _ (hmem c hcl)
        · rcases List.mem_singleton.mp hcr with rfl
          exact List.mem_cons_self _ _
      · rw [List.pairwise_append]
        refine ⟨hpair, List.pairwise_singleton _ _, ?_⟩
        intro a ha b hb
        rcases List.mem_singleton.mp hb with rfl
        intro heq
        apply hnotseen
        have hmema : a.tag ∈ seen := hmem a ha
        rw [heq] at hmema
        exact hmema
    · rw [if_neg hk]
      exact ih ⟨seen, detected⟩ ⟨hmem, hpair⟩

/-- The sentence fold preserves the detector-state invariant. -/
lemma foldl_detInv (language : String) :
    ∀ (sentences : List String) (st : List (String × String) × List Clause),
      DetInv st →
      DetInv (sentences.foldl
        (fun st sentence => ruleLoop sentence (pyLower sentence) language rules st) st) := by
  intro sentences
  induction sentences with
  | nil => intro st h; simpa using h
  | cons s rest ih =>
    intro st h
    exact ih _ (ruleLoop_detInv s (pyLower s) language rules st h)

/-- Claim C6: the rule-based detector never emits two clauses with the
same `(title, original_text)` pair, for any input text and language. -/
theorem c6_no_duplicate_tag (text language : String) :
    (fallback_detect_risks text language).Pairwise
      (fun a b => (a.title, a.original_text) ≠ (b.title, b.original_text)) := by
  have h := foldl_detInv language
    (((splitPunct (replaceNewlines text).data).map
        (fun l => pyStrip ⟨l⟩)).filter (· ≠ ""))
    ([], []) ⟨by intro c hc; simp at hc, List.Pairwise.nil⟩
  exact h.2

/-- The per-sentence rule loop only emits clauses whose severity comes
from the supplied rule table. -/
lemma ruleLoop_severity (sentence lower language : String) :
    ∀ (rs : List Rule) (st : List (String × String) × List Clause),
      (∀ r ∈ rs, r.severity = "high" ∨ r.severity = "medium") →
      (∀ c ∈ st.2, c.severity = "high" ∨ c.severity = "medium") →
      ∀ c ∈ (ruleLoop sentence lower language rs st).2,
        c.severity = "high" ∨ c.severity = "medium" := by
  intro rs
  induction rs with
  | nil => intro st _ hst; simpa [ruleLoop] using hst
  | cons r rest ih =>
    rintro ⟨seen, detected⟩ hrs hst
    unfold ruleLoop
    by_cases hk : kwLoop r.keywords lower sentence r.title seen = true
    · rw [if_pos hk]
      apply ih _ (fun r hr => hrs r (List.mem_cons_of_mem _ hr))
      intro c hc
      rcases List.mem_append.mp hc with hcl | hcr
      · exact hst c hcl
      · rcases List.mem_singleton.mp hcr with rfl
        exact hrs r (List.mem_cons_self _ _)
    · rw [if_neg hk]
      exact ih _ (fun r hr => hrs r (List.mem_cons_of_mem _ hr)) hst

/-- The sentence fold only emits clauses with a rule-table severity. -/
lemma foldl_severity (language : String) :
    ∀ (sentences : List String) (st : List (String × String) × List Clause),
      (∀ c ∈ st.2, c.severity = "high" ∨ c.severity = "medium") →
      ∀ c ∈ (sentences.foldl
        (fun st sentence => ruleLoop sentence (pyLower sentence) language rules st) st).2,
        c.severity = "high" ∨ c.severity = "medium" := by
  have hr : ∀ r ∈ rules, r.severity = "high" ∨ r.severity = "medium" := by decide
  intro sentences
  induction sentences with
  | nil => intro st h; simpa using h
  | cons s rest ih =>
    intro st h
    exact ih _ (ruleLoop_severity s (pyLower s) language rules st hr h)

/-- The accumulator of `calculate_risk_score` never decreases. -/
lemma foldl_sevWeight_le (l : List (Option String)) :
    ∀ n : Nat, n ≤ l.foldl (fun score s => score + sevWeight s) n := by
  induction l with
  | nil => intro n; simp
  | cons x xs ih =>
    intro n
    calc n ≤ n + sevWeight x := Nat.le_add_right n _
    _ ≤ xs.foldl (fun score s => score + sevWeight s) (n + sevWeight x) := ih _

/-- Claim C10: every clause emitted by the rule-based detector has
severity `"high"` or `"medium"` (never `"low"`), and consequently a
non-empty rule-based clause list always scores at least 15. -/
theorem c10_fallback_severity (text language : String) :
    (∀ c ∈ fallback_detect_risks text language,
      c.severity = "high" ∨ c.severity = "medium") ∧
    (fallback_detect_risks text language ≠ [] →
      15 ≤ calculate_risk_score
        ((fallback_detect_risks text language).map (fun c => some c.severity))) := by
  have hsev : ∀ c ∈ fallback_detect_risks text language,
      c.severity = "high" ∨ c.severity = "medium" := by
    intro c hc
    exact foldl_severity language _ ([], []) (by intro c hc; simp at hc) c hc
  refine ⟨hsev, fun hne => ?_⟩
  rcases hcl : fallback_detect_risks text language with _ | ⟨c, rest⟩
  · exact absurd hcl hne
  · have hc : c.severity = "high" ∨ c.severity = "medium" := by
      apply hsev
      rw [hcl]
      exact List.mem_cons_self _ _
    have hw : 15 ≤ sevWeight (some c.severity) := by
      rcases hc with h | h <;> rw [h] <;> decide
    unfold calculate_risk_score
    apply Nat.le_min.mpr
    constructor
    · simp only [List.map_cons, List.foldl_cons, Nat.zero_add]
      calc (15 : Nat) ≤ sevWeight (some c.severity) := hw
      _ ≤ _ := foldl_sevWeight_le _ _
    · norm_num

/-- Witness for C10 at a concrete one-sentence penalty input. -/
theorem c10_witness :
    ((⟨"penalty", "Penalty & Late Fees", "high", "penalty applies",
        "If your payment is late, you may need to pay penalty or late fees."⟩ : Clause).severity
        = "high" ∨
      (⟨"penalty", "Penalty & Late Fees", "high", "penalty applies",
        "If your payment is late, you may need to pay penalty or late fees."⟩ : Clause).severity
        = "medium") ∧
    15 ≤ calculate_risk_score
      ((fallback_detect_risks "penalty applies." "en").map (fun c => some c.severity)) := by
  have h := c10_fallback_severity "penalty applies." "en"
  exact ⟨h.1 _ (by decide), h.2 (by decide)⟩

/-- Claim C7 fails on the code for wrong-typed field values: a clause
entry whose `severity` is the integer 3 makes `.lower()` raise, the
enclosing handler catches it, and the whole response — not just the entry
— is discarded as unavailable. -/
theorem c7_counterexample :
    cleanClauses (.pdict [("clauses", .plist [.pdict [("severity", .pint 3)]])]) =
      .error () ∧
    ai_handle_response "\x7bx\x7d"
      (fun _ => some (.pdict [("clauses", .plist [.pdict [("severity", .pint 3)]])])) =
      none := by
  exact ⟨rfl, rfl⟩

/-- Claim C7 (amended): for every clause entry that is a dict whose
`severity`, `original_text` and `simplified_text` fields, where present,
are strings, the cleaning produces a clause with every field present and
safely defaulted (`type` → `"other"`, `title` → `"Risky clause"`,
`severity` → `"medium"`, text fields → empty string) and with the severity
lower-cased; an entry carrying a wrong-typed value in one of those three
fields instead makes the whole detection return the unavailable
sentinel. -/
theorem c7_clean_defaults (kvs : List (String × PyVal))
    (h1 : strFieldOk (kvs.lookup "severity") = true)
    (h2 : strFieldOk (kvs.lookup "original_text") = true)
    (h3 : strFieldOk (kvs.lookup "simplified_text") = true) :
    cleanOne (.pdict kvs) = .ok
      { type := (kvs.lookup "type").getD (.pstr "other")
        title := (kvs.lookup "title").getD (.pstr "Risky clause")
        severity := pyLower (getStrD (kvs.lookup "severity") "medium")
        original_text := pyStrip (getStrD (kvs.lookup "original_text") "")
        simplified_text := pyStrip (getStrD (kvs.lookup "simplified_text") "") } := by
  have hsev : pyLowerMeth ((kvs.lookup "severity").getD (.pstr "medium")) =
      .ok (pyLower (getStrD (kvs.lookup "severity") "medium")) := by
    cases hl : kvs.lookup "severity" with
    | none => rfl
    | some v =>
      rw [hl] at h1
      cases v <;> simp_all [strFieldOk, getStrD, pyLowerMeth]
  have hot : pyStripMeth ((kvs.lookup "original_text").getD (.pstr "")) =
      .ok (pyStrip (getStrD (kvs.lookup "original_text") "")) := by
    cases hl : kvs.lookup "original_text" with
    | none => rfl
    | some v =>
      rw [hl] at h2
      cases v <;> simp_all [strFieldOk, getStrD, pyStripMeth]
  have hst : pyStripMeth ((kvs.lookup "simplified_text").getD (.pstr "")) =
      .ok (pyStrip (getStrD (kvs.lookup "simplified_text") "")) := by
    cases hl : kvs.lookup "simplified_text" with
    | none => rfl
    | some v =>
      rw [hl] at h3
      cases v <;> simp_all [strFieldOk, getStrD, pyStripMeth]
  simp only [cleanOne, pyGet, bind, Except.bind, hsev, hot, hst, pure, Except.pure]

/-- Witness for the amended C7: an entry carrying only an upper-case
severity gets every other field defaulted and the severity lower-cased. -/
theorem c7_clean_defaults_witness :
    cleanOne (.pdict [("severity", .pstr "HIGH")]) =
      .ok ⟨.pstr "other", .pstr "Risky clause", "high", "", ""⟩ := by
  have h := c7_clean_defaults [("severity", .pstr "HIGH")] (by decide) rfl rfl
  exact h.trans rfl

end SafeSign
